import Mathlib

/-!
Verification of the quiz scoring and submission-integrity subsystem of the
classroom web application (src/app.py and src/db.py).

The relational store is modelled shallowly: each table is a list of typed
rows kept in insertion order (SQLite hands back rows of these simple
queries in rowid order, i.e. insertion order), `AUTOINCREMENT` primary
keys are modelled by explicit counters, and `ORDER BY` is modelled as a
stable sort on the stored order.  Python `float` arithmetic on the small
scores involved is modelled by exact rationals, and Python's `round`
(round-half-to-even) by `pyRoundInt` below.  Python exceptions are
modelled by `Option`: a handler that swallows an exception becomes a
branch that returns the unchanged state.
-/

/-! # Definitions -/

/-- Round-half-to-even on an exact rational, the behaviour of Python's
built-in `round` applied to an exact value. -/
def pyRoundInt (q : ℚ) : ℤ :=
  let f := q.floor
  let r := q - (f : ℚ)
  if r < 1/2 then f
  else if (1:ℚ)/2 < r then f + 1
  else if f % 2 = 0 then f else f + 1

/-- Python's `round(q, 2)` on an exact rational. -/
def pyRound2 (q : ℚ) : ℚ := (pyRoundInt (q * 100) : ℚ) / 100

/-- Python's `round(q, 1)` on an exact rational. -/
def pyRound1 (q : ℚ) : ℚ := (pyRoundInt (q * 10) : ℚ) / 10

/-! ## JSON serialization of the `choices` column

`db.py` and `app.py` store the choice list of a question with
`json.dumps(choices)` and read it back with `json.loads`.  The encoder
below mirrors CPython's `json.dumps` for a list of strings with its
default options (`ensure_ascii=True`, item separator a comma followed by
a space): double quote and backslash get two-character escapes, the
common control characters get their short escapes, every other character
below 0x20 or above 0x7e is written as a `\uXXXX` escape (a surrogate
pair for characters beyond 0xFFFF), and the rest is written literally. -/

/-- Lowercase hexadecimal digit, as `json.dumps` emits it. -/
def hex_digit_char (n : ℕ) : Char :=
  if n < 10 then Char.ofNat (48 + n) else Char.ofNat (87 + n)

/-- Four-digit hexadecimal rendering used inside a `\uXXXX` escape. -/
def hex4 (n : ℕ) : List Char :=
  [hex_digit_char (n / 4096 % 16), hex_digit_char (n / 256 % 16),
   hex_digit_char (n / 16 % 16), hex_digit_char (n % 16)]

/-- Encoding of one character inside a JSON string literal. -/
def encode_char (c : Char) : List Char :=
  if c = '"' then ['\\', '"']
  else if c = '\\' then ['\\', '\\']
  else if c.toNat = 8 then ['\\', 'b']
  else if c.toNat = 9 then ['\\', 't']
  else if c.toNat = 10 then ['\\', 'n']
  else if c.toNat = 12 then ['\\', 'f']
  else if c.toNat = 13 then ['\\', 'r']
  else if c.toNat < 32 then '\\' :: 'u' :: hex4 c.toNat
  else if c.toNat ≤ 126 then [c]
  else if c.toNat ≤ 65535 then '\\' :: 'u' :: hex4 c.toNat
  else
    '\\' :: 'u' :: hex4 (55296 + (c.toNat - 65536) / 1024)
      ++ '\\' :: 'u' :: hex4 (56320 + (c.toNat - 65536) % 1024)

/-- Character-wise encoding of a JSON string body. -/
def encode_string_body : List Char → List Char
  | [] => []
  | c :: rest => encode_char c ++ encode_string_body rest

/-- A JSON string literal: quote, encoded body, quote. -/
def encode_string (s : List Char) : List Char :=
  '"' :: encode_string_body s ++ ['"']

/-- Comma-plus-space separated JSON array items, as `json.dumps` emits
them with its default separators. -/
def encode_array_body : List (List Char) → List Char
  | [] => []
  | [s] => encode_string s
  | s :: rest => encode_string s ++ ',' :: ' ' :: encode_array_body rest

/-- Mirrors `json.dumps(choices)` for a list of strings. -/
def json_dumps_strings (xs : List String) : String :=
  ⟨'[' :: encode_array_body (xs.map String.data) ++ [']']⟩

/-! ## Data model: one typed row per table of the SQLite schema -/

/-- One row of the `questions` table (schema in `db.py`, `init_db`):
`choices` holds the raw TEXT column, a JSON-serialized array of strings. -/
structure QuestionRow where
  question_id : ℤ
  quiz_id : ℤ
  question_text : String
  choices : String
  answer_index : ℤ
  points : ℤ
deriving DecidableEq

/-- One row of the `quizzes` table. -/
structure QuizRow where
  id : ℤ
  class_id : ℤ
  title : String
  description : String
  created_by : ℤ
  created_at : String
deriving DecidableEq

/-- One row of the `submissions` table.  The `answers` TEXT column (a JSON
array of chosen index or null) is modelled decoded, as the list it
serializes. -/
structure SubmissionRow where
  id : ℤ
  quiz_id : ℤ
  student_id : ℤ
  answers : List (Option ℤ)
  score : ℚ
  submitted_at : String
deriving DecidableEq

/-- One row of the `enrollments` table; the schema declares
`UNIQUE(class_id, user_id)`. -/
structure EnrollRow where
  class_id : ℤ
  user_id : ℤ
  enrolled_at : String
deriving DecidableEq

/-- One question dict as passed to `create_quiz` / `update_quiz`
(`{question_text, choices, answer_index, points}`). -/
structure QuestionInput where
  question_text : String
  choices : List String
  answer_index : ℤ
  points : ℤ
deriving DecidableEq

/-- The relational store.  Tables are lists in insertion order; the
`next_*` counters model the AUTOINCREMENT primary keys. -/
structure DB where
  quizzes : List QuizRow
  questions : List QuestionRow
  submissions : List SubmissionRow
  enrollments : List EnrollRow
  next_quiz_id : ℤ
  next_question_id : ℤ
  next_submission_id : ℤ
deriving DecidableEq

/-- A store with empty tables. -/
def empty_db : DB := ⟨[], [], [], [], 1, 1, 1⟩

/-- Freshness of the id counters: every stored quiz id (and every stored
question's owning quiz id) is below the next quiz id to be allocated.
This invariant is established by the schema's AUTOINCREMENT keys. -/
@[reducible] def DB.WF (db : DB) : Prop :=
  (∀ r ∈ db.quizzes, r.id < db.next_quiz_id) ∧
  (∀ q ∈ db.questions, q.quiz_id < db.next_quiz_id)

/-! ## Quiz aggregate operations (db.py) -/

/-- The INSERT loop shared by `create_quiz` and `update_quiz`:
`INSERT INTO questions (quiz_id,question_text,choices,answer_index,points)`
executed once per question dict, serializing `choices` with `json.dumps`;
each row receives the next AUTOINCREMENT id. -/
def insert_questions (quiz_id : ℤ) (next_id : ℤ) : List QuestionInput → List QuestionRow
  | [] => []
  | q :: rest =>
    ⟨next_id, quiz_id, q.question_text, json_dumps_strings q.choices,
      q.answer_index, q.points⟩ :: insert_questions quiz_id (next_id + 1) rest

/-- Mirrors `db.create_quiz`: insert the quiz row, then insert every
question dict as-is (no validation of choices, answer index or points),
and return the new quiz id. -/
def create_quiz (db : DB) (class_id : ℤ) (title description : String)
    (created_by : ℤ) (created_at : String) (questions : List QuestionInput) : DB × ℤ :=
  let qid := db.next_quiz_id
  ({ db with
      quizzes := db.quizzes ++ [⟨qid, class_id, title, description, created_by, created_at⟩],
      questions := db.questions ++ insert_questions qid db.next_question_id questions,
      next_quiz_id := qid + 1,
      next_question_id := db.next_question_id + questions.length },
   qid)

/-- Mirrors `db.get_quiz`: `SELECT * FROM quizzes WHERE id = ?`, `None`
when absent, else the quiz together with
`SELECT * FROM questions WHERE quiz_id = ?` in stored (insertion) order. -/
def get_quiz (db : DB) (quiz_id : ℤ) : Option (QuizRow × List QuestionRow) :=
  match db.quizzes.find? (fun r => r.id == quiz_id) with
  | none => none
  | some quiz => some (quiz, db.questions.filter (fun q => q.quiz_id == quiz_id))

/-- Mirrors `db.update_quiz`: update title and description, `DELETE FROM
questions WHERE quiz_id = ?`, then re-insert the supplied question dicts
(again with no validation), all committed together. -/
def update_quiz (db : DB) (quiz_id : ℤ) (title description : String)
    (questions : List QuestionInput) : DB :=
  { db with
      quizzes := db.quizzes.map (fun r =>
        if r.id == quiz_id then
          { r with title := title, description := description }
        else r),
      questions := db.questions.filter (fun q => !(q.quiz_id == quiz_id))
        ++ insert_questions quiz_id db.next_question_id questions,
      next_question_id := db.next_question_id + questions.length }

/-- A structurally valid question dict (two choices, in-range answer). -/
def good_question : QuestionInput := ⟨"good", ["A", "B"], 0, 1⟩

/-- A question dict violating every §4.1 validation rule: empty choices,
out-of-range answer index, points below 1. -/
def bad_question : QuestionInput := ⟨"bad", [], 5, 0⟩

/-! ## Submission scorer (`take_quiz` POST branch, app.py) -/

/-- Points earned on one question: the body of
`if chosen is not None and chosen == correct: total_score += points`. -/
def question_earned (q : QuestionRow) (chosen : Option ℤ) : ℤ :=
  match chosen with
  | none => 0
  | some v => if v = q.answer_index then q.points else 0

/-- The scoring loop of `take_quiz`: accumulates `(total_score, max_score)`
over the quiz's questions and the corresponding chosen answers. -/
def score_loop : List QuestionRow → List (Option ℤ) → ℤ × ℤ
  | [], _ => (0, 0)
  | _ :: _, [] => (0, 0)
  | q :: qs, a :: rest =>
    let acc := score_loop qs rest
    (question_earned q a + acc.1, q.points + acc.2)

/-- Mirrors `percent = round((total_score / max_score) * 100, 2) if max_score > 0 else 0.0`. -/
def percent_of (total_score max_score : ℤ) : ℚ :=
  if 0 < max_score then pyRound2 ((total_score : ℚ) / (max_score : ℚ) * 100) else 0

/-- The percent score `take_quiz` persists for a given question list and
chosen-answer list. -/
def take_quiz_percent (qs : List QuestionRow) (answers : List (Option ℤ)) : ℚ :=
  percent_of (score_loop qs answers).1 (score_loop qs answers).2

/-! Spec-side scorer, written from the words of the specification (§4.3)
for comparison with the embedded loop above. -/

/-- Modelled from the spec: `correct[i] = (answers[i] is not null) and
(answers[i] == quiz_questions[i].correct_index)`. -/
def correct_spec (q : QuestionRow) (a : Option ℤ) : Bool :=
  decide (a ≠ none) && decide (a = some q.answer_index)

/-- Modelled from the spec: `earned = sum(question.points for i where correct[i])`. -/
def earned_spec (qs : List QuestionRow) (answers : List (Option ℤ)) : ℤ :=
  ((qs.zip answers).map (fun p => if correct_spec p.1 p.2 then p.1.points else 0)).sum

/-- Modelled from the spec: `max_points = sum(question.points for all questions)`. -/
def max_points_spec (qs : List QuestionRow) : ℤ :=
  (qs.map (fun q => q.points)).sum

/-- Modelled from the spec: `percent = round(100 * earned / max_points, 2)` if
`max_points > 0` else `0.0`. -/
def percent_spec (qs : List QuestionRow) (answers : List (Option ℤ)) : ℚ :=
  if 0 < max_points_spec qs then
    pyRound2 (100 * (earned_spec qs answers : ℚ) / (max_points_spec qs : ℚ))
  else 0

/-- First scenario question of the spec (§8), as stored. -/
def scenario_q1 : QuestionRow :=
  ⟨1, 1, "Which SQL command is used to remove a record?",
    "[\"SELECT\", \"DELETE\", \"INSERT\", \"UPDATE\"]", 1, 1⟩

/-- Second scenario question of the spec (§8), as stored. -/
def scenario_q2 : QuestionRow :=
  ⟨2, 1, "Which clause is used to filter groups?",
    "[\"WHERE\", \"GROUP BY\", \"HAVING\", \"ORDER BY\"]", 2, 2⟩

/-! ## Enrollment (`enroll_student`, db.py) -/

/-- Mirrors `enroll_student`: the INSERT raises `sqlite3.IntegrityError`
when the `UNIQUE(class_id, user_id)` constraint is violated, and the
handler `except sqlite3.IntegrityError: pass` discards it, leaving the
table unchanged. -/
def enroll_student (enrollments : List EnrollRow) (class_id student_id : ℤ)
    (ts : String) : List EnrollRow :=
  if enrollments.any (fun e => e.class_id == class_id && e.user_id == student_id) then
    enrollments
  else
    enrollments ++ [⟨class_id, student_id, ts⟩]

/-! ## Analytics (tutor_dashboard, app.py) and submission listing -/

/-- Python `x or d` for a count: `0` is falsy, any other count truthy. -/
def py_or (n d : ℕ) : ℕ := if n = 0 then d else n

/-- Mirrors `SELECT COUNT(DISTINCT student_id) FROM submissions WHERE quiz_id = ?`. -/
def distinct_submitters (db : DB) (quiz_id : ℤ) : ℕ :=
  ((db.submissions.filter (fun s => s.quiz_id == quiz_id)).map
    (fun s => s.student_id)).dedup.length

/-- Mirrors `SELECT COUNT(*) FROM enrollments WHERE class_id = ?`. -/
def enrolled_count (db : DB) (class_id : ℤ) : ℕ :=
  (db.enrollments.filter (fun e => e.class_id == class_id)).length

/-- Mirrors the tutor-dashboard computation
`comp_rate = round((submissions or 0) / (enrolled or 1) * 100, 1)`. -/
def completion_rate (db : DB) (class_id quiz_id : ℤ) : ℚ :=
  pyRound1 ((py_or (distinct_submitters db quiz_id) 0 : ℚ)
    / (py_or (enrolled_count db class_id) 1 : ℚ) * 100)

/-- Mirrors `db.get_submissions_for_quiz` and the tutor branch of
`quiz_results`: the quiz's submissions `ORDER BY score DESC`.  The SQL
sort applied to the insertion-ordered table is modelled by a stable merge
sort with the comparison `score DESC`. -/
def get_submissions_for_quiz (db : DB) (quiz_id : ℤ) : List SubmissionRow :=
  (db.submissions.filter (fun s => s.quiz_id == quiz_id)).mergeSort
    (fun a b => decide (b.score ≤ a.score))

/-- Store with no enrollments for class 1 but two submissions for quiz 1
by distinct students. -/
def db_zero_enrolled : DB :=
  { empty_db with
      submissions := [⟨1, 1, 101, [], 100, "t1"⟩, ⟨2, 1, 102, [], 50, "t2"⟩],
      next_submission_id := 3 }

/-- Store with four students enrolled in class 1 and two submissions for
quiz 1 by distinct students. -/
def db_four_enrolled : DB :=
  { empty_db with
      enrollments := [⟨1, 101, "e"⟩, ⟨1, 102, "e"⟩, ⟨1, 103, "e"⟩, ⟨1, 104, "e"⟩],
      submissions := [⟨1, 1, 101, [], 100, "t1"⟩, ⟨2, 1, 102, [], 50, "t2"⟩],
      next_submission_id := 3 }

/-! ## Answer parsing and the take_quiz POST branch (app.py) -/

/-- Whitespace characters Python strips around an integer literal. -/
def py_space (c : Char) : Bool :=
  c = ' ' || c = '\t' || c = '\n' || c = '\r' || c.toNat = 11 || c.toNat = 12

/-- Digit run continuation, with CPython's rule that a single underscore
may separate two digits. -/
def py_digits_rest : List Char → ℕ → Option ℕ
  | [], acc => some acc
  | c :: rest, acc =>
    if c.isDigit then py_digits_rest rest (acc * 10 + (c.toNat - 48))
    else if c = '_' then
      match rest with
      | [] => none
      | d :: rest2 =>
        if d.isDigit then py_digits_rest rest2 (acc * 10 + (d.toNat - 48)) else none
    else none

/-- A nonempty digit run (must start with a digit). -/
def py_digits : List Char → Option ℕ
  | [] => none
  | c :: rest => if c.isDigit then py_digits_rest rest (c.toNat - 48) else none

/-- Mirrors `int(val)` on a string: surrounding whitespace is stripped, an
optional sign is allowed, and the remainder must be a digit run; any other
input raises `ValueError`, modelled as `none` (the bare `except` of
`take_quiz` turns it into an unanswered question). -/
def py_int (s : String) : Option ℤ :=
  match ((s.data.dropWhile py_space).reverse.dropWhile py_space).reverse with
  | '+' :: rest => (py_digits rest).map (fun n => (n : ℤ))
  | '-' :: rest => (py_digits rest).map (fun n => -(n : ℤ))
  | rest => (py_digits rest).map (fun n => (n : ℤ))

/-- Mirrors the answer collection of `take_quiz`: read the form field
`q_{question_id}`; a missing field stays `None`, and an unparseable value
becomes `None` through the `except` handler. -/
def collect_answer (form : ℤ → Option String) (q : QuestionRow) : Option ℤ :=
  match form q.question_id with
  | none => none
  | some v => py_int v

/-- The `answers` list `take_quiz` builds and persists, one entry per
question of the quiz in stored order. -/
def collect_answers (qs : List QuestionRow) (form : ℤ → Option String) :
    List (Option ℤ) :=
  qs.map (fun q => collect_answer form q)

/-- Mirrors the POST branch of `take_quiz` end to end: 404 (`none`) when
the quiz does not exist, otherwise collect the answers, score them, and
append one submission row carrying the answers and the computed percent. -/
def take_quiz_post (db : DB) (quiz_id student_id : ℤ) (form : ℤ → Option String)
    (ts : String) : Option DB :=
  match db.quizzes.find? (fun r => r.id == quiz_id) with
  | none => none
  | some _ =>
    let questions := db.questions.filter (fun q => q.quiz_id == quiz_id)
    let answers := collect_answers questions form
    some { db with
      submissions := db.submissions ++
        [⟨db.next_submission_id, quiz_id, student_id, answers,
          take_quiz_percent questions answers, ts⟩],
      next_submission_id := db.next_submission_id + 1 }

/-! ## JSON parsing of the `choices` column (`json.loads` at read time) -/

/-- Value of one hexadecimal digit, as `json.loads` accepts it. -/
def hex_val (c : Char) : Option ℕ :=
  if c.isDigit then some (c.toNat - 48)
  else if 'a' ≤ c ∧ c ≤ 'f' then some (c.toNat - 87)
  else if 'A' ≤ c ∧ c ≤ 'F' then some (c.toNat - 55)
  else none

/-- Four hexadecimal digits of a `\uXXXX` escape. -/
def parse_hex4 : List Char → Option (ℕ × List Char)
  | a :: b :: c :: d :: rest =>
    match hex_val a with
    | none => none
    | some x =>
      match hex_val b with
      | none => none
      | some y =>
        match hex_val c with
        | none => none
        | some z =>
          match hex_val d with
          | none => none
          | some w => some (x * 4096 + y * 256 + z * 16 + w, rest)
  | _ => none

/-- The tail of a `\u` escape.  A value in the high-surrogate range must
be followed by a low surrogate and the pair decodes to the character
beyond 0xFFFF it encodes.  (CPython keeps a lone surrogate as a lone
surrogate code unit, which has no counterpart in Lean's `Char`; `json.dumps`
output never contains lone surrogates, so the round trip is unaffected.) -/
def parse_low_surrogate (hi : ℕ) : List Char → Option (Char × List Char)
  | '\\' :: 'u' :: rest2 =>
    (match parse_hex4 rest2 with
    | none => none
    | some (m, rest3) =>
      if 56320 ≤ m ∧ m ≤ 57343 then
        some (Char.ofNat (65536 + (hi - 55296) * 1024 + (m - 56320)), rest3)
      else none)
  | _ => none

def parse_u_escape (l : List Char) : Option (Char × List Char) :=
  match parse_hex4 l with
  | none => none
  | some (n, rest1) =>
    if 55296 ≤ n ∧ n ≤ 56319 then parse_low_surrogate n rest1
    else if 56320 ≤ n ∧ n ≤ 57343 then none
    else some (Char.ofNat n, rest1)

/-- One escape sequence after a backslash inside a JSON string. -/
def parse_escape : List Char → Option (Char × List Char)
  | [] => none
  | c :: rest =>
    if c = '"' then some ('"', rest)
    else if c = '\\' then some ('\\', rest)
    else if c = '/' then some ('/', rest)
    else if c = 'b' then some (Char.ofNat 8, rest)
    else if c = 'f' then some (Char.ofNat 12, rest)
    else if c = 'n' then some (Char.ofNat 10, rest)
    else if c = 'r' then some (Char.ofNat 13, rest)
    else if c = 't' then some (Char.ofNat 9, rest)
    else if c = 'u' then parse_u_escape rest
    else none

/-- Body of a JSON string after the opening quote, strict about raw
control characters as `json.loads` is.  Runs on fuel; every step consumes
at least one character, so the input length plus one suffices. -/
def parse_string_body : ℕ → List Char → Option (List Char × List Char)
  | 0, _ => none
  | _ + 1, [] => none
  | fuel + 1, c :: rest =>
    if c = '"' then some ([], rest)
    else if c = '\\' then
      match parse_escape rest with
      | none => none
      | some (d, rest1) =>
        match parse_string_body fuel rest1 with
        | none => none
        | some (s, rest2) => some (d :: s, rest2)
    else if c.toNat < 32 then none
    else
      match parse_string_body fuel rest with
      | none => none
      | some (s, rest2) => some (c :: s, rest2)

/-- One JSON string literal. -/
def parse_string_lit (l : List Char) : Option (List Char × List Char) :=
  match l with
  | '"' :: rest => parse_string_body (rest.length + 1) rest
  | _ => none

/-- Whitespace skipping between JSON tokens. -/
def skip_spaces (l : List Char) : List Char :=
  l.dropWhile (fun c => c = ' ' || c = '\t' || c = '\n' || c = '\r')

/-- Items of a nonempty JSON array of strings, on fuel (one item per
step). -/
def parse_array_items : ℕ → List Char → Option (List (List Char) × List Char)
  | 0, _ => none
  | fuel + 1, l =>
    match parse_string_lit l with
    | none => none
    | some (s, rest) =>
      match skip_spaces rest with
      | ',' :: rest2 =>
        match parse_array_items fuel (skip_spaces rest2) with
        | none => none
        | some (items, rest3) => some (s :: items, rest3)
      | ']' :: rest2 => some ([s], rest2)
      | _ => none

/-- One JSON array of strings. -/
def parse_string_array (l : List Char) : Option (List (List Char) × List Char) :=
  match skip_spaces l with
  | '[' :: rest =>
    match skip_spaces rest with
    | ']' :: rest2 => some ([], rest2)
    | rest1 => parse_array_items (rest1.length + 1) rest1
  | _ => none

/-- Mirrors `json.loads` for the `choices` column: the whole text must be
one array of strings. -/
def json_loads_strings (s : String) : Option (List String) :=
  match parse_string_array s.data with
  | none => none
  | some (items, rest) =>
    if skip_spaces rest = [] then some (items.map (fun l => (⟨l⟩ : String)))
    else none

/-- The view `take_quiz` (GET) and `quiz_results` build from a stored
question row, decoding the JSON `choices` column with `json.loads`:
text, decoded choices, answer index and points. -/
def question_view (q : QuestionRow) : Option (String × List String × ℤ × ℤ) :=
  match json_loads_strings q.choices with
  | none => none
  | some cs => some (q.question_text, cs, q.answer_index, q.points)

/-! # Theorems -/

/-- Rat.floor agrees with the mathematical floor on ℚ. -/
theorem ratFloor_eq_floor (q : ℚ) : q.floor = ⌊q⌋ := by
  rw [Rat.floor_def, Rat.floor_def']

theorem pyRoundInt_of_lt_half (q : ℚ) (f : ℤ) (h1 : (f:ℚ) ≤ q) (h2 : q - f < 1/2) :
    pyRoundInt q = f := by
  have hf : q.floor = f := by
    rw [ratFloor_eq_floor, Int.floor_eq_iff]
    refine ⟨h1, ?_⟩
    linarith
  simp only [pyRoundInt, hf]
  rw [if_pos h2]

theorem pyRoundInt_of_gt_half (q : ℚ) (f : ℤ) (h1 : (f:ℚ) ≤ q) (h1' : q < f + 1)
    (h2 : 1/2 < q - f) : pyRoundInt q = f + 1 := by
  have hf : q.floor = f := by
    rw [ratFloor_eq_floor, Int.floor_eq_iff]
    refine ⟨h1, ?_⟩
    linarith
  simp only [pyRoundInt, hf]
  rw [if_neg (by linarith), if_pos h2]

theorem question_earned_eq_spec (q : QuestionRow) (a : Option ℤ) :
    question_earned q a = if correct_spec q a then q.points else 0 := by
  cases a with
  | none => simp [question_earned, correct_spec]
  | some v =>
    by_cases h : v = q.answer_index <;>
      simp [question_earned, correct_spec, h]

theorem score_loop_eq_spec (qs : List QuestionRow) (answers : List (Option ℤ))
    (h : answers.length = qs.length) :
    score_loop qs answers = (earned_spec qs answers, max_points_spec qs) := by
  induction qs generalizing answers with
  | nil =>
    cases answers with
    | nil => rfl
    | cons a rest => simp at h
  | cons q qs ih =>
    cases answers with
    | nil => simp at h
    | cons a rest =>
      simp only [List.length_cons, Nat.add_right_cancel_iff] at h
      simp only [score_loop, ih rest h, earned_spec, max_points_spec, List.zip_cons_cons,
        List.map_cons, List.sum_cons, question_earned_eq_spec]

/-- Claim C1.  The scoring computation of `take_quiz` marks a question
correct exactly when its answer is non-null and equals the question's
correct-answer index (any other integer, in or out of range, simply earns
nothing and raises no error), accumulates `earned` as the sum of points of
correct questions and `max_points` as the sum of all points, and yields
the persisted percent `round(100 * earned / max_points, 2)` when
`max_points > 0` and `0.0` otherwise. -/
theorem take_quiz_scoring_matches_spec (qs : List QuestionRow) (answers : List (Option ℤ))
    (h : answers.length = qs.length) :
    (∀ (q : QuestionRow) (a : Option ℤ),
        question_earned q a = if correct_spec q a then q.points else 0) ∧
    (score_loop qs answers).1 = earned_spec qs answers ∧
    (score_loop qs answers).2 = max_points_spec qs ∧
    take_quiz_percent qs answers = percent_spec qs answers := by
  refine ⟨question_earned_eq_spec, ?_, ?_, ?_⟩
  · rw [score_loop_eq_spec qs answers h]
  · rw [score_loop_eq_spec qs answers h]
  · rw [take_quiz_percent, score_loop_eq_spec qs answers h, percent_of, percent_spec]
    rcases lt_or_ge 0 (max_points_spec qs) with hpos | hpos
    · rw [if_pos hpos, if_pos hpos, div_mul_eq_mul_div, mul_comm]
    · rw [if_neg (not_lt.mpr hpos), if_neg (not_lt.mpr hpos)]

theorem take_quiz_scoring_matches_spec_witness :
    (([some 1, some 2] : List (Option ℤ)).length = [scenario_q1, scenario_q2].length) ∧
    ((∀ (q : QuestionRow) (a : Option ℤ),
        question_earned q a = if correct_spec q a then q.points else 0) ∧
      (score_loop [scenario_q1, scenario_q2] [some 1, some 2]).1
        = earned_spec [scenario_q1, scenario_q2] [some 1, some 2] ∧
      (score_loop [scenario_q1, scenario_q2] [some 1, some 2]).2
        = max_points_spec [scenario_q1, scenario_q2] ∧
      take_quiz_percent [scenario_q1, scenario_q2] [some 1, some 2]
        = percent_spec [scenario_q1, scenario_q2] [some 1, some 2]) :=
  ⟨rfl, take_quiz_scoring_matches_spec [scenario_q1, scenario_q2] [some 1, some 2] rfl⟩

/-- Scenario check (§8): fully correct answers on the two scenario
questions score 100.0 percent. -/
theorem scenario_full_marks :
    take_quiz_percent [scenario_q1, scenario_q2] [some 1, some 2] = 100 := by
  have h : score_loop [scenario_q1, scenario_q2] [some 1, some 2] = (3, 3) := by decide
  rw [take_quiz_percent, h]
  show percent_of 3 3 = 100
  rw [percent_of, if_pos (by norm_num), pyRound2]
  have harg : ((3:ℤ):ℚ) / ((3:ℤ):ℚ) * 100 * 100 = 10000 := by norm_num
  rw [harg, pyRoundInt_of_lt_half 10000 10000 (by norm_num) (by norm_num)]
  norm_num

/-- Scenario check (§8): answering only the first (1-point) question of the
two scenario questions correctly scores round(100/3, 2) = 33.33 percent. -/
theorem scenario_partial_marks :
    take_quiz_percent [scenario_q1, scenario_q2] [some 1, none] = 3333/100 := by
  have h : score_loop [scenario_q1, scenario_q2] [some 1, none] = (1, 3) := by decide
  rw [take_quiz_percent, h]
  show percent_of 1 3 = 3333/100
  rw [percent_of, if_pos (by norm_num), pyRound2]
  have harg : ((1:ℤ):ℚ) / ((3:ℤ):ℚ) * 100 * 100 = 10000/3 := by norm_num
  rw [harg, pyRoundInt_of_lt_half (10000/3) 3333 (by norm_num) (by norm_num)]
  norm_num

/-- Claim C7.  A quiz with zero questions (and the corresponding empty
answer list) scores percent 0.0: `max_score = 0` takes the guarded branch,
so no division by zero occurs; the scorer is a total function by
construction. -/
theorem zero_question_quiz_scores_zero :
    score_loop [] [] = (0, 0) ∧ take_quiz_percent [] [] = 0 :=
  ⟨rfl, rfl⟩

/-- Claim C10.  Enrolling a (class, student) pair that is already enrolled
raises no error and leaves the enrollments unchanged (the uniqueness
violation is caught and discarded), and enrolling twice equals enrolling
once. -/
theorem enroll_student_idempotent (enrollments : List EnrollRow) (c s : ℤ) (t : String)
    (e : EnrollRow) (he : e ∈ enrollments) (hc : e.class_id = c) (hs : e.user_id = s) :
    enroll_student enrollments c s t = enrollments ∧
    ∀ (enr : List EnrollRow) (c' s' : ℤ) (t₁ t₂ : String),
      enroll_student (enroll_student enr c' s' t₁) c' s' t₂
        = enroll_student enr c' s' t₁ := by
  constructor
  · rw [enroll_student, if_pos]
    rw [List.any_eq_true]
    exact ⟨e, he, by simp [hc, hs]⟩
  · intro enr c' s' t₁ t₂
    have key : ((enroll_student enr c' s' t₁).any
        fun e => e.class_id == c' && e.user_id == s') = true := by
      rw [enroll_student]
      by_cases h : (enr.any fun e => e.class_id == c' && e.user_id == s') = true
      · rw [if_pos h]; exact h
      · rw [if_neg h, List.any_append]; simp
    rw [enroll_student, if_pos key]

theorem enroll_student_idempotent_witness :
    ((⟨1, 2, "now"⟩ : EnrollRow) ∈ [(⟨1, 2, "now"⟩ : EnrollRow)] ∧
      (⟨1, 2, "now"⟩ : EnrollRow).class_id = 1 ∧ (⟨1, 2, "now"⟩ : EnrollRow).user_id = 2) ∧
    enroll_student [(⟨1, 2, "now"⟩ : EnrollRow)] 1 2 "later" = [(⟨1, 2, "now"⟩ : EnrollRow)] :=
  ⟨⟨by decide, rfl, rfl⟩,
    (enroll_student_idempotent [⟨1, 2, "now"⟩] 1 2 "later" ⟨1, 2, "now"⟩
      (by decide) rfl rfl).1⟩

theorem insert_questions_quiz_id (qid : ℤ) (qs : List QuestionInput) :
    ∀ (nid : ℤ), ∀ r ∈ insert_questions qid nid qs, r.quiz_id = qid := by
  induction qs with
  | nil =>
    intro nid r hr
    simp [insert_questions] at hr
  | cons q rest ih =>
    intro nid r hr
    rcases List.mem_cons.mp hr with rfl | hr2
    · rfl
    · exact ih (nid + 1) r hr2

theorem insert_questions_fields (qid : ℤ) (qs : List QuestionInput) :
    ∀ (nid : ℤ),
      (insert_questions qid nid qs).map
          (fun r => (r.question_text, r.choices, r.answer_index, r.points))
        = qs.map (fun q =>
            (q.question_text, json_dumps_strings q.choices, q.answer_index, q.points)) := by
  induction qs with
  | nil => intro nid; rfl
  | cons q rest ih =>
    intro nid
    simp only [insert_questions, List.map_cons, ih (nid + 1)]

/-- Claim C2 counterexample.  The claim says creation fails with a
`ValidationError` (and writes nothing) when a question has empty choices,
an out-of-range correct index, or points below 1.  In the code neither
`db.create_quiz` nor the `create_quiz` route validates anything: a
question dict violating all three rules at once is inserted as-is and
creation succeeds, so the write does happen. -/
theorem create_quiz_inserts_invalid_question :
    ((create_quiz empty_db 1 "t" "d" 1 "ts" [bad_question]).1).questions
      = [⟨1, 1, "bad", "[]", 5, 0⟩] ∧
    ((create_quiz empty_db 1 "t" "d" 1 "ts" [bad_question]).1).questions ≠ [] := by
  constructor <;> decide

/-- Claim C2 (amended).  Quiz creation performs no validation: every
submitted question dict — empty choices, out-of-range correct index and
non-positive points included — is appended to the `questions` table
as given (choices serialized with `json.dumps`), and the operation always
succeeds; no `ValidationError` exists in the code. -/
theorem create_quiz_no_validation (db : DB) (c : ℤ) (t d : String) (u : ℤ) (ts : String)
    (qs : List QuestionInput) :
    ((create_quiz db c t d u ts qs).1).questions
      = db.questions ++ insert_questions db.next_quiz_id db.next_question_id qs ∧
    (insert_questions db.next_quiz_id db.next_question_id qs).map
        (fun r => (r.question_text, r.choices, r.answer_index, r.points))
      = qs.map (fun q =>
          (q.question_text, json_dumps_strings q.choices, q.answer_index, q.points)) :=
  ⟨rfl, insert_questions_fields _ qs _⟩

/-- Claim C3 counterexample.  The claim says a replacement list containing
an invalid question (empty choices) makes `update_quiz` roll back, so that
reloading returns the original question set.  In the code `update_quiz`
validates nothing: replacing the single valid question of a quiz by
`bad_question` succeeds, and the reload returns the new invalid set, not
the original one. -/
theorem update_quiz_keeps_invalid_replacement :
    get_quiz (update_quiz (create_quiz empty_db 1 "t" "d" 1 "ts" [good_question]).1
        1 "t" "d" [bad_question]) 1
      = some (⟨1, 1, "t", "d", 1, "ts"⟩, [⟨2, 1, "bad", "[]", 5, 0⟩]) ∧
    get_quiz (update_quiz (create_quiz empty_db 1 "t" "d" 1 "ts" [good_question]).1
        1 "t" "d" [bad_question]) 1
      ≠ get_quiz (create_quiz empty_db 1 "t" "d" 1 "ts" [good_question]).1 1 := by
  constructor <;> decide

/-- Claim C3 (amended).  `update_quiz` swaps the question list wholesale
and unconditionally — within the single transaction it deletes every
question of the quiz and re-inserts the supplied list without validating
it, so afterwards the quiz's question set is exactly the new list (valid
or not) and the question sets of all other quizzes are untouched; no
partially replaced state is observable, but an invalid list is never
rejected. -/
theorem update_quiz_wholesale (db : DB) (qid : ℤ) (t d : String) (qs : List QuestionInput)
    (other : ℤ) (hother : other ≠ qid) :
    (update_quiz db qid t d qs).questions.filter (fun q => q.quiz_id == qid)
      = insert_questions qid db.next_question_id qs ∧
    (update_quiz db qid t d qs).questions.filter (fun q => q.quiz_id == other)
      = db.questions.filter (fun q => q.quiz_id == other) := by
  constructor
  · show (db.questions.filter (fun q => !(q.quiz_id == qid))
        ++ insert_questions qid db.next_question_id qs).filter (fun q => q.quiz_id == qid)
      = insert_questions qid db.next_question_id qs
    rw [List.filter_append]
    have h1 : (db.questions.filter (fun q => !(q.quiz_id == qid))).filter
        (fun q => q.quiz_id == qid) = [] := by
      rw [List.filter_filter]
      apply List.filter_eq_nil_iff.mpr
      intro a _
      cases h : a.quiz_id == qid <;> simp [h]
    have h2 : (insert_questions qid db.next_question_id qs).filter
        (fun q => q.quiz_id == qid) = insert_questions qid db.next_question_id qs := by
      apply List.filter_eq_self.mpr
      intro a ha
      rw [insert_questions_quiz_id qid qs _ a ha]
      simp
    rw [h1, h2, List.nil_append]
  · show (db.questions.filter (fun q => !(q.quiz_id == qid))
        ++ insert_questions qid db.next_question_id qs).filter (fun q => q.quiz_id == other)
      = db.questions.filter (fun q => q.quiz_id == other)
    rw [List.filter_append]
    have h3 : (insert_questions qid db.next_question_id qs).filter
        (fun q => q.quiz_id == other) = [] := by
      apply List.filter_eq_nil_iff.mpr
      intro a ha
      rw [insert_questions_quiz_id qid qs _ a ha]
      simp
      exact fun h => hother h.symm
    have h4 : (db.questions.filter (fun q => !(q.quiz_id == qid))).filter
        (fun q => q.quiz_id == other) = db.questions.filter (fun q => q.quiz_id == other) := by
      rw [List.filter_filter]
      apply List.filter_congr
      intro a _
      by_cases h : a.quiz_id = other
      · have hne : ¬(a.quiz_id = qid) := by rw [h]; exact hother
        simp [h, hne]
        exact hother
      · simp [h]
    rw [h3, h4, List.append_nil]

theorem update_quiz_wholesale_witness :
    ((2 : ℤ) ≠ 1) ∧
    ((update_quiz empty_db 1 "t" "d" [good_question]).questions.filter
        (fun q => q.quiz_id == 1)
      = insert_questions 1 empty_db.next_question_id [good_question] ∧
    (update_quiz empty_db 1 "t" "d" [good_question]).questions.filter
        (fun q => q.quiz_id == 2)
      = empty_db.questions.filter (fun q => q.quiz_id == 2)) :=
  ⟨by decide, update_quiz_wholesale empty_db 1 "t" "d" [good_question] 2 (by decide)⟩

/-- Claim C4.  Loading a quiz signals `NotFound` (`None`) when no quiz has
the requested id; loading a quiz right after creating it returns exactly
the questions inserted for it, in insertion order, with text, serialized
choices, answer index and points matching the submitted list
position-by-position. -/
theorem get_quiz_creation_order (db : DB) (hwf : db.WF) (c : ℤ) (t d : String) (u : ℤ)
    (ts : String) (qs : List QuestionInput) (missing : ℤ)
    (hm : ∀ r ∈ db.quizzes, r.id ≠ missing) :
    get_quiz db missing = none ∧
    get_quiz (create_quiz db c t d u ts qs).1 (create_quiz db c t d u ts qs).2
      = some (⟨db.next_quiz_id, c, t, d, u, ts⟩,
          insert_questions db.next_quiz_id db.next_question_id qs) ∧
    (insert_questions db.next_quiz_id db.next_question_id qs).map
        (fun r => (r.question_text, r.choices, r.answer_index, r.points))
      = qs.map (fun q =>
          (q.question_text, json_dumps_strings q.choices, q.answer_index, q.points)) := by
  refine ⟨?_, ?_, insert_questions_fields _ qs _⟩
  · have hfind : db.quizzes.find? (fun r => r.id == missing) = none := by
      apply List.find?_eq_none.mpr
      intro x hx
      simp only [beq_iff_eq]
      exact hm x hx
    simp only [get_quiz, hfind]
  · show get_quiz (create_quiz db c t d u ts qs).1 db.next_quiz_id = _
    have hfind : (db.quizzes
        ++ [(⟨db.next_quiz_id, c, t, d, u, ts⟩ : QuizRow)]).find?
          (fun r => r.id == db.next_quiz_id)
        = some ⟨db.next_quiz_id, c, t, d, u, ts⟩ := by
      rw [List.find?_append]
      have hnone : db.quizzes.find? (fun r => r.id == db.next_quiz_id) = none := by
        apply List.find?_eq_none.mpr
        intro x hx
        simp only [beq_iff_eq]
        exact ne_of_lt (hwf.1 x hx)
      rw [hnone]
      simp [List.find?]
    have hfilter : ((db.questions
        ++ insert_questions db.next_quiz_id db.next_question_id qs).filter
          (fun q => q.quiz_id == db.next_quiz_id))
        = insert_questions db.next_quiz_id db.next_question_id qs := by
      rw [List.filter_append]
      have hold : db.questions.filter (fun q => q.quiz_id == db.next_quiz_id) = [] := by
        apply List.filter_eq_nil_iff.mpr
        intro a ha
        simp only [beq_iff_eq]
        exact ne_of_lt (hwf.2 a ha)
      have hnew : (insert_questions db.next_quiz_id db.next_question_id qs).filter
          (fun q => q.quiz_id == db.next_quiz_id)
          = insert_questions db.next_quiz_id db.next_question_id qs := by
        apply List.filter_eq_self.mpr
        intro a ha
        rw [insert_questions_quiz_id _ qs _ a ha]
        simp
      rw [hold, hnew, List.nil_append]
    simp only [get_quiz, create_quiz, hfind, hfilter]

theorem get_quiz_creation_order_witness :
    (empty_db.WF ∧ (∀ r ∈ empty_db.quizzes, r.id ≠ 42)) ∧
    (get_quiz empty_db 42 = none ∧
      get_quiz (create_quiz empty_db 1 "t" "d" 1 "ts" [good_question]).1
          (create_quiz empty_db 1 "t" "d" 1 "ts" [good_question]).2
        = some (⟨empty_db.next_quiz_id, 1, "t", "d", 1, "ts"⟩,
            insert_questions empty_db.next_quiz_id empty_db.next_question_id
              [good_question]) ∧
      (insert_questions empty_db.next_quiz_id empty_db.next_question_id
          [good_question]).map
          (fun r => (r.question_text, r.choices, r.answer_index, r.points))
        = [good_question].map (fun q =>
            (q.question_text, json_dumps_strings q.choices, q.answer_index, q.points))) :=
  ⟨⟨by decide, by decide⟩,
    get_quiz_creation_order empty_db (by decide) 1 "t" "d" 1 "ts"
      [good_question] 42 (by decide)⟩

/-- Claim C5 (amended).  The completion rate equals the number of distinct
students with at least one submission for the quiz, divided by the number
of enrollment rows of the class, times 100, rounded to 1 decimal; when the
enrolled count is 0 the denominator is replaced by 1, so the figure equals
100 times the count of distinct submitters (not the bare count). -/
theorem completion_rate_formula (db : DB) (class_id quiz_id : ℤ) :
    completion_rate db class_id quiz_id
      = pyRound1 ((((db.submissions.filter (fun s => s.quiz_id == quiz_id)).map
            (fun s => s.student_id)).toFinset.card : ℚ)
          / (if enrolled_count db class_id = 0 then 1 else (enrolled_count db class_id : ℚ))
          * 100) := by
  rw [completion_rate]
  have hnum : (((db.submissions.filter (fun s => s.quiz_id == quiz_id)).map
      (fun s => s.student_id)).toFinset.card : ℚ)
      = ((py_or (distinct_submitters db quiz_id) 0 : ℕ) : ℚ) := by
    rw [List.card_toFinset]
    show ((distinct_submitters db quiz_id : ℕ) : ℚ) = _
    rw [py_or]
    split
    · rename_i h
      rw [h]
    · rfl
  have hden : (if enrolled_count db class_id = 0 then (1:ℚ)
      else (enrolled_count db class_id : ℚ))
      = ((py_or (enrolled_count db class_id) 1 : ℕ) : ℚ) := by
    rw [py_or]
    split
    · norm_num
    · rfl
  rw [hnum, hden]

/-- Claim C5 counterexample.  With zero enrolled students and two distinct
submitters the code computes `round(2 / 1 * 100, 1) = 200.0`; the claim's
parenthetical says the figure equals the count of distinct submitters,
which is 2, and 200.0 is not 2. -/
theorem completion_rate_zero_enrolled_counterexample :
    completion_rate db_zero_enrolled 1 1 = 200 ∧
    distinct_submitters db_zero_enrolled 1 = 2 ∧
    enrolled_count db_zero_enrolled 1 = 0 ∧
    (200 : ℚ) ≠ 2 := by
  refine ⟨?_, by decide, by decide, by norm_num⟩
  rw [completion_rate]
  have h1 : py_or (distinct_submitters db_zero_enrolled 1) 0 = 2 := by decide
  have h2 : py_or (enrolled_count db_zero_enrolled 1) 1 = 1 := by decide
  rw [h1, h2, pyRound1]
  have harg : (((2:ℕ):ℚ) / ((1:ℕ):ℚ) * 100) * 10 = 2000 := by norm_num
  rw [harg, pyRoundInt_of_lt_half 2000 2000 (by norm_num) (by norm_num)]
  norm_num

/-- Scenario check (§8): four enrolled students and two distinct
submitters give a completion rate of 50.0. -/
theorem completion_rate_four_enrolled_two_submitters :
    completion_rate db_four_enrolled 1 1 = 50 := by
  rw [completion_rate]
  have h1 : py_or (distinct_submitters db_four_enrolled 1) 0 = 2 := by decide
  have h2 : py_or (enrolled_count db_four_enrolled 1) 1 = 4 := by decide
  rw [h1, h2, pyRound1]
  have harg : (((2:ℕ):ℚ) / ((4:ℕ):ℚ) * 100) * 10 = 500 := by norm_num
  rw [harg, pyRoundInt_of_lt_half 500 500 (by norm_num) (by norm_num)]
  norm_num

/-- Claim C6.  Listing a quiz's submissions returns a permutation of the
quiz's stored submission rows, sorted by score descending, and within any
group of equal scores the stored (insertion) order is preserved — the
sort is stable. -/
theorem get_submissions_sorted_stable (db : DB) (quiz_id : ℤ) :
    List.Perm (get_submissions_for_quiz db quiz_id)
        (db.submissions.filter (fun s => s.quiz_id == quiz_id)) ∧
    (get_submissions_for_quiz db quiz_id).Pairwise (fun a b => b.score ≤ a.score) ∧
    ∀ c : ℚ,
      (get_submissions_for_quiz db quiz_id).filter (fun s => decide (s.score = c))
        = (db.submissions.filter (fun s => s.quiz_id == quiz_id)).filter
            (fun s => decide (s.score = c)) := by
  have htrans : ∀ (a b c : SubmissionRow),
      (fun a b => decide (b.score ≤ a.score)) a b = true →
      (fun a b => decide (b.score ≤ a.score)) b c = true →
      (fun a b => decide (b.score ≤ a.score)) a c = true := by
    intro a b c h1 h2
    simp only [decide_eq_true_eq] at h1 h2 ⊢
    exact le_trans h2 h1
  have htotal : ∀ (a b : SubmissionRow),
      ((fun a b => decide (b.score ≤ a.score)) a b
        || (fun a b => decide (b.score ≤ a.score)) b a) = true := by
    intro a b
    rcases le_total a.score b.score with h | h <;> simp [h]
  refine ⟨List.mergeSort_perm _ _, ?_, ?_⟩
  · exact (List.sorted_mergeSort htrans htotal _).imp (fun h => by
      simpa using of_decide_eq_true h)
  · intro c
    have hpair : ((db.submissions.filter (fun s => s.quiz_id == quiz_id)).filter
        (fun s => decide (s.score = c))).Pairwise
          (fun a b => decide (b.score ≤ a.score) = true) := by
      apply List.pairwise_of_forall_mem_list
      intro a ha b hb
      have ha2 := (List.mem_filter.mp ha).2
      have hb2 := (List.mem_filter.mp hb).2
      simp only [decide_eq_true_eq] at ha2 hb2 ⊢
      rw [ha2, hb2]
    have hsub0 : List.Sublist
        ((db.submissions.filter (fun s => s.quiz_id == quiz_id)).filter
          (fun s => decide (s.score = c)))
        (db.submissions.filter (fun s => s.quiz_id == quiz_id)) :=
      List.filter_sublist _
    have hsub : List.Sublist
        ((db.submissions.filter (fun s => s.quiz_id == quiz_id)).filter
          (fun s => decide (s.score = c)))
        (get_submissions_for_quiz db quiz_id) :=
      List.sublist_mergeSort htrans htotal hpair hsub0
    have hfil := hsub.filter (fun s => decide (s.score = c))
    rw [List.filter_filter] at hfil
    have hidem : ((db.submissions.filter (fun s => s.quiz_id == quiz_id)).filter
        fun a => decide (a.score = c) && decide (a.score = c))
        = (db.submissions.filter (fun s => s.quiz_id == quiz_id)).filter
            (fun s => decide (s.score = c)) := by
      apply List.filter_congr
      intro a _
      rw [Bool.and_self]
    rw [hidem] at hfil
    have hperm : List.Perm
        ((get_submissions_for_quiz db quiz_id).filter (fun s => decide (s.score = c)))
        ((db.submissions.filter (fun s => s.quiz_id == quiz_id)).filter
          (fun s => decide (s.score = c))) :=
      (List.mergeSort_perm _ _).filter _
    exact (hfil.eq_of_length hperm.length_eq.symm).symm


/-- Claim C9.  A form value that is missing or cannot be parsed as an
integer is recorded as null (unanswered) at that question's position in
the persisted answers list and earns nothing; the POST handler fails only
when the quiz itself is missing (404), never because of a malformed
answer value. -/
theorem malformed_answer_recorded_null (form : ℤ → Option String) (q : QuestionRow)
    (pre post : List QuestionRow)
    (hbad : ∀ v, form q.question_id = some v → py_int v = none) :
    collect_answers (pre ++ q :: post) form
      = collect_answers pre form ++ none :: collect_answers post form ∧
    question_earned q (collect_answer form q) = 0 ∧
    ∀ (db : DB) (quiz_id student_id : ℤ) (ts : String),
      (take_quiz_post db quiz_id student_id form ts).isSome
        = (db.quizzes.find? (fun r => r.id == quiz_id)).isSome := by
  have hnone : collect_answer form q = none := by
    rw [collect_answer]
    cases hf : form q.question_id with
    | none => rfl
    | some v => exact hbad v hf
  refine ⟨?_, ?_, ?_⟩
  · simp only [collect_answers, List.map_append, List.map_cons, hnone]
  · rw [hnone]
    rfl
  · intro db quiz_id student_id ts
    cases hf : db.quizzes.find? (fun r => r.id == quiz_id) <;>
      simp [take_quiz_post, hf]

theorem malformed_answer_recorded_null_witness :
    (∀ v, (fun _ => some "abc" : ℤ → Option String) scenario_q1.question_id = some v
        → py_int v = none) ∧
    (collect_answers ([] ++ scenario_q1 :: []) (fun _ => some "abc")
        = collect_answers [] (fun _ => some "abc")
          ++ none :: collect_answers [] (fun _ => some "abc") ∧
      question_earned scenario_q1 (collect_answer (fun _ => some "abc") scenario_q1) = 0 ∧
      ∀ (db : DB) (quiz_id student_id : ℤ) (ts : String),
        (take_quiz_post db quiz_id student_id (fun _ => some "abc") ts).isSome
          = (db.quizzes.find? (fun r => r.id == quiz_id)).isSome) := by
  have hb : ∀ v, ((fun _ => some "abc" : ℤ → Option String) scenario_q1.question_id
      = some v) → py_int v = none := by
    intro v hv
    have h2 := Option.some.inj hv
    rw [← h2]
    decide
  exact ⟨hb, malformed_answer_recorded_null (fun _ => some "abc") scenario_q1 [] [] hb⟩

/-- Sanity check of the `int()` model: the radio values of the form parse
to their indices, and assorted malformed values fail. -/
theorem py_int_model_checks :
    py_int "0" = some 0 ∧ py_int "2" = some 2 ∧ py_int " 12 " = some 12 ∧
    py_int "-3" = some (-3) ∧ py_int "1_0" = some 10 ∧
    py_int "abc" = none ∧ py_int "" = none ∧ py_int "1.5" = none ∧
    py_int "+" = none ∧ py_int "1_" = none := by
  decide

theorem hex_val_hex_digit : ∀ n < 16, hex_val (hex_digit_char n) = some n := by
  intro n hn
  interval_cases n <;> decide

theorem parse_hex4_hex4 (n : ℕ) (hn : n < 65536) (rest : List Char) :
    parse_hex4 (hex4 n ++ rest) = some (n, rest) := by
  have h3 : n / 4096 % 16 < 16 := Nat.mod_lt _ (by norm_num)
  have h2 : n / 256 % 16 < 16 := Nat.mod_lt _ (by norm_num)
  have h1 : n / 16 % 16 < 16 := Nat.mod_lt _ (by norm_num)
  have h0 : n % 16 < 16 := Nat.mod_lt _ (by norm_num)
  show parse_hex4 (hex_digit_char (n / 4096 % 16) :: hex_digit_char (n / 256 % 16)
    :: hex_digit_char (n / 16 % 16) :: hex_digit_char (n % 16) :: rest) = some (n, rest)
  simp only [parse_hex4, hex_val_hex_digit _ h3, hex_val_hex_digit _ h2,
    hex_val_hex_digit _ h1, hex_val_hex_digit _ h0]
  have harith : n / 4096 % 16 * 4096 + n / 256 % 16 * 256 + n / 16 % 16 * 16 + n % 16
      = n := by omega
  rw [harith]

theorem parse_u_escape_unfold (n : ℕ) (hn : n < 65536) (rest : List Char) :
    parse_u_escape (hex4 n ++ rest)
      = if 55296 ≤ n ∧ n ≤ 56319 then parse_low_surrogate n rest
        else if 56320 ≤ n ∧ n ≤ 57343 then none
        else some (Char.ofNat n, rest) := by
  simp only [parse_u_escape, parse_hex4_hex4 n hn rest]

theorem parse_low_surrogate_hex (hi m : ℕ) (hm : m < 65536)
    (hrange : 56320 ≤ m ∧ m ≤ 57343) (rest : List Char) :
    parse_low_surrogate hi ('\\' :: 'u' :: (hex4 m ++ rest))
      = some (Char.ofNat (65536 + (hi - 55296) * 1024 + (m - 56320)), rest) := by
  simp only [parse_low_surrogate, parse_hex4_hex4 m hm rest]
  rw [if_pos hrange]

theorem parse_u_escape_basic (n : ℕ) (hn : n < 65536) (hval : n < 55296 ∨ 57343 < n)
    (rest : List Char) :
    parse_u_escape (hex4 n ++ rest) = some (Char.ofNat n, rest) := by
  rw [parse_u_escape_unfold n hn rest, if_neg (by omega), if_neg (by omega)]

theorem parse_u_escape_pair (n : ℕ) (h1 : 65536 ≤ n) (h2 : n < 1114112) (rest : List Char) :
    parse_u_escape (hex4 (55296 + (n - 65536) / 1024)
      ++ ('\\' :: 'u' :: (hex4 (56320 + (n - 65536) % 1024) ++ rest)))
      = some (Char.ofNat n, rest) := by
  have hhi : 55296 + (n - 65536) / 1024 < 65536 := by omega
  have hlo : 56320 + (n - 65536) % 1024 < 65536 := by omega
  rw [parse_u_escape_unfold _ hhi]
  rw [if_pos (by omega : 55296 ≤ 55296 + (n - 65536) / 1024
    ∧ 55296 + (n - 65536) / 1024 ≤ 56319)]
  rw [parse_low_surrogate_hex _ _ hlo (by omega) rest]
  have harith : 65536 + (55296 + (n - 65536) / 1024 - 55296) * 1024
      + (56320 + (n - 65536) % 1024 - 56320) = n := by omega
  rw [harith]

theorem parse_escape_u (l : List Char) : parse_escape ('u' :: l) = parse_u_escape l := rfl

/-- Every character is either written literally by `encode_char` (a
printable ASCII character other than quote and backslash) or as a
backslash escape that `parse_escape` decodes back to the same character. -/
theorem encode_char_spec (c : Char) :
    (encode_char c = [c] ∧ 32 ≤ c.toNat ∧ c.toNat ≤ 126 ∧ c ≠ '"' ∧ c ≠ '\\') ∨
    (∃ tail, encode_char c = '\\' :: tail ∧
      ∀ rest, parse_escape (tail ++ rest) = some (c, rest)) := by
  have hv : c.toNat < 55296 ∨ (57343 < c.toNat ∧ c.toNat < 1114112) := c.valid
  by_cases h1 : c = '"'
  · right
    refine ⟨['"'], ?_, fun rest => by rw [h1]; rfl⟩
    rw [encode_char, if_pos h1]
  by_cases h2 : c = '\\'
  · right
    refine ⟨['\\'], ?_, fun rest => by rw [h2]; rfl⟩
    rw [encode_char, if_neg h1, if_pos h2]
  by_cases h3 : c.toNat = 8
  · right
    refine ⟨['b'], ?_, fun rest => ?_⟩
    · rw [encode_char, if_neg h1, if_neg h2, if_pos h3]
    · have hc : c = Char.ofNat 8 := by rw [← h3, Char.ofNat_toNat]
      rw [hc]
      rfl
  by_cases h4 : c.toNat = 9
  · right
    refine ⟨['t'], ?_, fun rest => ?_⟩
    · rw [encode_char, if_neg h1, if_neg h2, if_neg h3, if_pos h4]
    · have hc : c = Char.ofNat 9 := by rw [← h4, Char.ofNat_toNat]
      rw [hc]
      rfl
  by_cases h5 : c.toNat = 10
  · right
    refine ⟨['n'], ?_, fun rest => ?_⟩
    · rw [encode_char, if_neg h1, if_neg h2, if_neg h3, if_neg h4, if_pos h5]
    · have hc : c = Char.ofNat 10 := by rw [← h5, Char.ofNat_toNat]
      rw [hc]
      rfl
  by_cases h6 : c.toNat = 12
  · right
    refine ⟨['f'], ?_, fun rest => ?_⟩
    · rw [encode_char, if_neg h1, if_neg h2, if_neg h3, if_neg h4, if_neg h5, if_pos h6]
    · have hc : c = Char.ofNat 12 := by rw [← h6, Char.ofNat_toNat]
      rw [hc]
      rfl
  by_cases h7 : c.toNat = 13
  · right
    refine ⟨['r'], ?_, fun rest => ?_⟩
    · rw [encode_char, if_neg h1, if_neg h2, if_neg h3, if_neg h4, if_neg h5, if_neg h6,
        if_pos h7]
    · have hc : c = Char.ofNat 13 := by rw [← h7, Char.ofNat_toNat]
      rw [hc]
      rfl
  by_cases h8 : c.toNat < 32
  · right
    refine ⟨'u' :: hex4 c.toNat, ?_, fun rest => ?_⟩
    · rw [encode_char, if_neg h1, if_neg h2, if_neg h3, if_neg h4, if_neg h5, if_neg h6,
        if_neg h7, if_pos h8]
    · show parse_u_escape (hex4 c.toNat ++ rest) = some (c, rest)
      rw [parse_u_escape_basic c.toNat (by omega) (by omega) rest, Char.ofNat_toNat]
  by_cases h9 : c.toNat ≤ 126
  · left
    refine ⟨?_, by omega, h9, h1, h2⟩
    rw [encode_char, if_neg h1, if_neg h2, if_neg h3, if_neg h4, if_neg h5, if_neg h6,
      if_neg h7, if_neg h8, if_pos h9]
  by_cases h10 : c.toNat ≤ 65535
  · right
    refine ⟨'u' :: hex4 c.toNat, ?_, fun rest => ?_⟩
    · rw [encode_char, if_neg h1, if_neg h2, if_neg h3, if_neg h4, if_neg h5, if_neg h6,
        if_neg h7, if_neg h8, if_neg h9, if_pos h10]
    · show parse_u_escape (hex4 c.toNat ++ rest) = some (c, rest)
      rw [parse_u_escape_basic c.toNat (by omega) (by omega) rest, Char.ofNat_toNat]
  · right
    refine ⟨'u' :: (hex4 (55296 + (c.toNat - 65536) / 1024)
      ++ ('\\' :: 'u' :: hex4 (56320 + (c.toNat - 65536) % 1024))), ?_, fun rest => ?_⟩
    · rw [encode_char, if_neg h1, if_neg h2, if_neg h3, if_neg h4, if_neg h5, if_neg h6,
        if_neg h7, if_neg h8, if_neg h9, if_neg h10]
      simp [List.cons_append]
    · rw [List.cons_append, parse_escape_u, List.append_assoc, List.cons_append,
        List.cons_append]
      rw [parse_u_escape_pair c.toNat (by omega) (by omega) rest, Char.ofNat_toNat]

theorem parse_string_body_cons (fuel : ℕ) (c : Char) (rest : List Char) :
    parse_string_body (fuel + 1) (c :: rest)
      = if c = '"' then some ([], rest)
        else if c = '\\' then
          match parse_escape rest with
          | none => none
          | some (d, rest1) =>
            match parse_string_body fuel rest1 with
            | none => none
            | some (s, rest2) => some (d :: s, rest2)
        else if c.toNat < 32 then none
        else
          match parse_string_body fuel rest with
          | none => none
          | some (s, rest2) => some (c :: s, rest2) := rfl

theorem parse_string_body_encode (s : List Char) : ∀ (fuel : ℕ) (rest : List Char),
    (encode_string_body s).length + 1 ≤ fuel →
    parse_string_body fuel (encode_string_body s ++ ('"' :: rest)) = some (s, rest) := by
  induction s with
  | nil =>
    intro fuel rest hfuel
    obtain ⟨k, rfl⟩ : ∃ k, fuel = k + 1 := ⟨fuel - 1, by omega⟩
    show parse_string_body (k + 1) ('"' :: rest) = some ([], rest)
    rfl
  | cons c s ih =>
    intro fuel rest hfuel
    have hsplit : encode_string_body (c :: s)
        = encode_char c ++ encode_string_body s := rfl
    have hlen : (encode_string_body (c :: s)).length
        = (encode_char c).length + (encode_string_body s).length := by
      rw [hsplit, List.length_append]
    obtain ⟨k, rfl⟩ : ∃ k, fuel = k + 1 := ⟨fuel - 1, by omega⟩
    rw [hsplit]
    rcases encode_char_spec c with ⟨hlit, h32, h126, hq, hbs⟩ | ⟨tail, htail, hparse⟩
    · have hlen1 : (encode_char c).length = 1 := by rw [hlit]; rfl
      rw [hlit, List.singleton_append, List.cons_append]
      rw [parse_string_body_cons, if_neg hq, if_neg hbs, if_neg (by omega)]
      simp only [ih k rest (by omega)]
    · have hlen1 : (encode_char c).length = tail.length + 1 := by
        rw [htail]
        rfl
      rw [htail, List.cons_append, List.cons_append]
      rw [parse_string_body_cons, if_neg (by decide : ¬('\\' : Char) = '"'),
        if_pos (rfl : ('\\' : Char) = '\\')]
      rw [List.append_assoc]
      simp only [hparse (encode_string_body s ++ ('"' :: rest))]
      simp only [ih k rest (by omega)]


theorem parse_string_lit_cons (l : List Char) :
    parse_string_lit ('"' :: l) = parse_string_body (l.length + 1) l := rfl

theorem parse_string_lit_encode (s : List Char) (rest : List Char) :
    parse_string_lit (encode_string s ++ rest) = some (s, rest) := by
  have hshape : encode_string s ++ rest
      = '"' :: (encode_string_body s ++ ('"' :: rest)) := by
    show (('"' :: encode_string_body s) ++ ['"']) ++ rest = _
    rw [List.append_assoc, List.singleton_append, List.cons_append]
  rw [hshape, parse_string_lit_cons]
  apply parse_string_body_encode
  rw [List.length_append]
  simp

theorem skip_spaces_quote (l : List Char) : skip_spaces ('"' :: l) = '"' :: l := rfl

theorem skip_spaces_comma (l : List Char) : skip_spaces (',' :: l) = ',' :: l := rfl

theorem skip_spaces_rbracket (l : List Char) : skip_spaces (']' :: l) = ']' :: l := rfl

theorem skip_spaces_space (l : List Char) : skip_spaces (' ' :: l) = skip_spaces l := rfl

theorem encode_array_body_shape (y : List Char) (ys : List (List Char)) :
    ∃ tl, encode_array_body (y :: ys) = '"' :: tl := by
  cases ys with
  | nil =>
    refine ⟨encode_string_body y ++ ['"'], ?_⟩
    show encode_string y = _
    rfl
  | cons z zs =>
    refine ⟨(encode_string_body y ++ ['"'])
      ++ (',' :: ' ' :: encode_array_body (z :: zs)), ?_⟩
    show encode_string y ++ (',' :: ' ' :: encode_array_body (z :: zs)) = _
    show (('"' :: encode_string_body y) ++ ['"'])
      ++ (',' :: ' ' :: encode_array_body (z :: zs)) = _
    rw [List.cons_append, List.cons_append]

theorem encode_array_body_head (y : List Char) (ys : List (List Char)) (app : List Char) :
    skip_spaces (encode_array_body (y :: ys) ++ app) = encode_array_body (y :: ys) ++ app := by
  obtain ⟨tl, htl⟩ := encode_array_body_shape y ys
  rw [htl, List.cons_append, skip_spaces_quote]

theorem parse_array_items_succ (fuel : ℕ) (l : List Char) :
    parse_array_items (fuel + 1) l
      = match parse_string_lit l with
        | none => none
        | some (s, rest) =>
          match skip_spaces rest with
          | ',' :: rest2 =>
            match parse_array_items fuel (skip_spaces rest2) with
            | none => none
            | some (items, rest3) => some (s :: items, rest3)
          | ']' :: rest2 => some ([s], rest2)
          | _ => none := rfl

theorem parse_array_items_encode (xs : List (List Char)) : ∀ (x : List Char) (fuel : ℕ)
    (rest : List Char), xs.length + 1 ≤ fuel →
    parse_array_items fuel (encode_array_body (x :: xs) ++ (']' :: rest))
      = some (x :: xs, rest) := by
  induction xs with
  | nil =>
    intro x fuel rest hfuel
    obtain ⟨k, rfl⟩ : ∃ k, fuel = k + 1 := ⟨fuel - 1, by omega⟩
    rw [show encode_array_body [x] = encode_string x from rfl]
    rw [parse_array_items_succ]
    simp only [parse_string_lit_encode x (']' :: rest)]
    simp only [skip_spaces_rbracket]
  | cons y ys ih =>
    intro x fuel rest hfuel
    rw [List.length_cons] at hfuel
    obtain ⟨k, rfl⟩ : ∃ k, fuel = k + 1 := ⟨fuel - 1, by omega⟩
    rw [show encode_array_body (x :: y :: ys)
        = encode_string x ++ (',' :: ' ' :: encode_array_body (y :: ys)) from rfl]
    rw [List.append_assoc, List.cons_append, List.cons_append]
    rw [parse_array_items_succ]
    simp only [parse_string_lit_encode]
    simp only [skip_spaces_comma]
    simp only [skip_spaces_space, encode_array_body_head]
    simp only [ih y k rest (by omega)]

theorem parse_string_array_cons (l : List Char) :
    parse_string_array ('[' :: l)
      = match skip_spaces l with
        | ']' :: rest2 => some ([], rest2)
        | rest1 => parse_array_items (rest1.length + 1) rest1 := rfl

theorem encode_array_body_length (xs : List (List Char)) :
    xs.length ≤ (encode_array_body xs).length := by
  induction xs with
  | nil => simp [encode_array_body]
  | cons x t ih =>
    cases t with
    | nil =>
      show 1 ≤ (encode_string x).length
      show 1 ≤ (('"' :: encode_string_body x) ++ ['"']).length
      rw [List.length_append, List.length_cons]
      omega
    | cons y ys =>
      show (y :: ys).length + 1
        ≤ (encode_string x ++ (',' :: ' ' :: encode_array_body (y :: ys))).length
      simp only [List.length_append, List.length_cons] at ih ⊢
      omega

theorem parse_string_array_dumps (xs : List (List Char)) :
    parse_string_array ('[' :: (encode_array_body xs ++ [']'])) = some (xs, []) := by
  cases xs with
  | nil => decide
  | cons x t =>
    rw [parse_string_array_cons]
    rw [show ([']'] : List Char) = ']' :: [] from rfl]
    rw [encode_array_body_head x t (']' :: [])]
    obtain ⟨tl, htl⟩ := encode_array_body_shape x t
    have hlen := encode_array_body_length (x :: t)
    rw [htl, List.cons_append]
    show parse_array_items (('"' :: (tl ++ (']' :: []))).length + 1) ('"' :: (tl ++ (']' :: [])))
      = some (x :: t, [])
    rw [← List.cons_append, ← htl]
    apply parse_array_items_encode
    simp only [List.length_append, List.length_cons, List.length_nil] at hlen ⊢
    omega

theorem json_loads_dumps (xs : List String) :
    json_loads_strings (json_dumps_strings xs) = some xs := by
  have hdata : (json_dumps_strings xs).data
      = '[' :: (encode_array_body (xs.map String.data) ++ [']']) := by
    show ('[' :: encode_array_body (xs.map String.data)) ++ [']'] = _
    rw [List.cons_append]
  simp only [json_loads_strings, hdata, parse_string_array_dumps]
  rw [show skip_spaces ([] : List Char) = [] from rfl, if_pos rfl]
  rw [List.map_map]
  have hcomp : ((fun l => (⟨l⟩ : String)) ∘ String.data) = fun s => s := rfl
  rw [hcomp]
  rw [List.map_id']

/-- Claim C8.  Round trip of the JSON choice-array format: serializing any
choices list with the `json.dumps` model at write time and deserializing
it with the `json.loads` model at read time yields an equal choices
sequence, and the stored question row keeps the same correct-answer
index, so the decoded view equals the data that was saved. -/
theorem choices_round_trip (choices : List String) (idx : ℤ) (qid quiz : ℤ)
    (txt : String) (pts : ℤ) :
    json_loads_strings (json_dumps_strings choices) = some choices ∧
    question_view ⟨qid, quiz, txt, json_dumps_strings choices, idx, pts⟩
      = some (txt, choices, idx, pts) := by
  refine ⟨json_loads_dumps choices, ?_⟩
  show (match json_loads_strings (json_dumps_strings choices) with
    | none => none
    | some cs => some (txt, cs, idx, pts)) = some (txt, choices, idx, pts)
  rw [json_loads_dumps choices]

/-- Concrete instance of the round trip from the spec (§8): choices
`["A","B","C"]` with correct index 1 reload unchanged. -/
theorem choices_round_trip_example :
    question_view ⟨1, 1, "q", json_dumps_strings ["A", "B", "C"], 1, 1⟩
      = some ("q", ["A", "B", "C"], 1, 1) := by decide
